import Mathlib

/-!
Shallow embedding of `pkg/security/resolvers/process/resolver_ebpf.go`
(the eBPF process-context resolver of the datadog-agent security module).

Conventions of the embedding:
* Wall-clock times (`time.Time`) are natural numbers of seconds; the zero
  value of `time.Time` is `0`, `time.Minute` is `60`, and
  `tm.Add(time.Minute).Before(now)` is `tm + 60 < now`.
* The Go `map[uint32]*model.ProcessCacheEntry` is an association list
  `List (Nat × ProcessCacheEntry)`; pointer mutation of a cached entry is
  modelled by writing the updated value back under its key.
* Atomic counters are `Nat` fields of the resolver state (`cacheSize` is an
  `Int` since releases can decrement it).
* External collaborators (kernel maps, procfs, path/mount/container/user
  resolvers, rate limiter) are modelled as explicit oracle functions
  gathered in a structure; the resolver code itself is translated
  line-by-line from the Go source.
* The reference-counted ancestor graph is modelled only as far as the
  claims need it: entries carry a `refCount` and an `ancestorPid` link.
-/

namespace DDProc

/-- `time.Minute` in the time unit of the embedding (seconds). -/
def timeMinute : Nat := 60

/-- Association-list lookup, the model of Go `m[k]` (first binding wins;
`mapInsert` keeps keys unique). -/
def mapLookup {α : Type} (m : List (Nat × α)) (k : Nat) : Option α :=
  match m with
  | [] => none
  | (k', v) :: rest => if k' = k then some v else mapLookup rest k

/-- Association-list erase, the model of Go `delete(m, k)`. -/
def mapErase {α : Type} (m : List (Nat × α)) (k : Nat) : List (Nat × α) :=
  match m with
  | [] => []
  | (k', v) :: rest => if k' = k then mapErase rest k else (k', v) :: mapErase rest k

/-- Association-list insert/replace, the model of Go `m[k] = v`. -/
def mapInsert {α : Type} (m : List (Nat × α)) (k : Nat) (v : α) : List (Nat × α) :=
  (k, v) :: mapErase m k

/-- Process credentials (`model.Credentials`): the fields touched by the
resolver's update handlers. -/
structure Credentials where
  uid : Nat := 0
  user : String := ""
  euid : Nat := 0
  euser : String := ""
  fsuid : Nat := 0
  fsuser : String := ""
  gid : Nat := 0
  group : String := ""
  egid : Nat := 0
  egroup : String := ""
  fsgid : Nat := 0
  fsgroup : String := ""
  auid : Nat := 0
  capEffective : Nat := 0
  capPermitted : Nat := 0
  deriving DecidableEq

/-- `model.FileFields` as carried by the exec-file kernel map: the inode plus
a fileless marker (tmpfs/memfd backing). -/
structure FileFields where
  inode : Nat := 0
  mountID : Nat := 0
  isFileless : Bool := false
  deriving DecidableEq

/-- `model.FileEvent`: executable (or interpreter) file context of an entry. -/
structure FileEvent where
  inode : Nat := 0
  mountID : Nat := 0
  isFileless : Bool := false
  pathnameStr : String := ""
  basenameStr : String := ""
  mountPath : String := ""
  mountOrigin : Nat := 0
  mountSource : Nat := 0
  filesystem : String := ""
  deriving DecidableEq

/-- An observed AWS security credential (`model.AWSSecurityCredentials`). -/
structure AWSSecurityCredentials where
  accessKeyID : String := ""
  expiration : Nat := 0
  deriving DecidableEq

/-- Provenance of a cache entry (`model.ProcessCacheEntryFrom*`). -/
inductive Source where
  | event
  | kernelMap
  | procfs
  | snapshot
  deriving DecidableEq

/-- `model.ProcessCacheEntry`: the fields of the central record that the
resolver functions under study read or write. -/
structure ProcessCacheEntry where
  pid : Nat := 0
  tid : Nat := 0
  ppid : Nat := 0
  execInode : Nat := 0
  cookie : Nat := 0
  comm : String := ""
  forkTime : Nat := 0
  execTime : Nat := 0
  exitTime : Nat := 0
  fileEvent : FileEvent := {}
  linuxBinprm : FileEvent := {}
  credentials : Credentials := {}
  containerID : String := ""
  cgroupID : String := ""
  cgroupFlags : Nat := 0
  cgroupFileMountID : Nat := 0
  cgroupFileInode : Nat := 0
  ttyName : String := ""
  netns : Nat := 0
  argsID : Nat := 0
  envsID : Nat := 0
  argsTruncated : Bool := false
  envsTruncated : Bool := false
  argsValues : List String := []
  argsEntryTruncated : Bool := false
  envsValues : List String := []
  envsEntryTruncated : Bool := false
  user : String := ""
  euser : String := ""
  fsuser : String := ""
  group : String := ""
  egroup : String := ""
  fsgroup : String := ""
  symlinkPathname0 : String := ""
  symlinkPathname1 : String := ""
  symlinkBasename : String := ""
  isThread : Bool := false
  isKworker : Bool := false
  isParentMissing : Bool := false
  identityFingerprint : Nat := 0
  source : Source := Source.event
  refCount : Nat := 0
  ancestorPid : Option Nat := none
  parentOfForkChild : Bool := false
  awsSecurityCredentials : List AWSSecurityCredentials := []
  deriving DecidableEq

namespace ProcessCacheEntry

/-- Modelled from the spec: `ProcessCacheEntry.Equals` compares the identity
fingerprint of two entries (the spec delegates the exact composition of the
fingerprint — cookie + inode + path — to the entry type; the model keeps it
as one opaque field). -/
def Equals (a b : ProcessCacheEntry) : Bool :=
  a.identityFingerprint = b.identityFingerprint

/-- Modelled from the spec: `ProcessCacheEntry.ApplyExecTimeOf` applies the
other entry's exec time to the receiver. -/
def ApplyExecTimeOf (a b : ProcessCacheEntry) : ProcessCacheEntry :=
  { a with execTime := b.execTime }

/-- Modelled from the spec: `ProcessCacheEntry.Exit` records the exit time. -/
def Exit (a : ProcessCacheEntry) (exitTime : Nat) : ProcessCacheEntry :=
  { a with exitTime := exitTime }

/-- Modelled from the spec: `SetAncestor` installs the ancestor link (the
ref-count transfer of the real code is tracked by the `refCount` field of
the ancestor where the claims need it; here only the link matters). -/
def SetAncestor (a parent : ProcessCacheEntry) : ProcessCacheEntry :=
  { a with ancestorPid := some parent.pid }

/-- Modelled from the spec: `SetParentOfForkChild` installs the ancestor link
and marks the parent/child fork relation. -/
def SetParentOfForkChild (a parent : ProcessCacheEntry) : ProcessCacheEntry :=
  { a with ancestorPid := some parent.pid, parentOfForkChild := true }

/-- Modelled from the spec: `parent.Fork(child)` copies credential,
file-event, container and interpreter fields from parent to child and sets
the child's ancestor to the parent. -/
def Fork (parent child : ProcessCacheEntry) : ProcessCacheEntry :=
  { child with
    credentials := parent.credentials
    fileEvent := parent.fileEvent
    linuxBinprm := parent.linuxBinprm
    containerID := parent.containerID
    ancestorPid := some parent.pid }

/-- Modelled from the spec: `prev.Exec(new)` sets the new entry's ancestor to
the previous entry, preserving the previous chain. -/
def Exec (prev newEntry : ProcessCacheEntry) : ProcessCacheEntry :=
  { newEntry with ancestorPid := some prev.pid }

/-- Modelled from the spec: `HasInterpreter` — the interpreter file event is
populated (non-zero inode). -/
def HasInterpreter (a : ProcessCacheEntry) : Bool :=
  a.linuxBinprm.inode ≠ 0

/-- `Retain` — one more stored reference. -/
def Retain (a : ProcessCacheEntry) : ProcessCacheEntry :=
  { a with refCount := a.refCount + 1 }

end ProcessCacheEntry

/-- Staged argv/envp fragments (`argsEnvsCacheEntry`). -/
structure ArgsEnvsCacheEntry where
  values : List String
  truncated : Bool
  deriving DecidableEq

/-- Resolver state: `Snapshotting`/`Snapshotted` (the Go `iota` constants). -/
inductive RunState where
  | snapshotting
  | snapshotted
  deriving DecidableEq

/-- The mutable state of `EBPFResolver`: the pid map, the exited queue, the
staging buffer and the statistics counters. -/
structure RState where
  state : RunState := RunState.snapshotting
  entryCache : List (Nat × ProcessCacheEntry) := []
  exitedQueue : List Nat := []
  argsEnvsCache : List (Nat × ArgsEnvsCacheEntry) := []
  cacheSize : Int := 0
  hitsCache : Nat := 0
  hitsKernelMaps : Nat := 0
  hitsProcfs : Nat := 0
  missStats : Nat := 0
  addedEntriesFromEvent : Nat := 0
  addedEntriesFromKernelMap : Nat := 0
  addedEntriesFromProcFS : Nat := 0
  flushedEntries : Nat := 0
  pathErrStats : Nat := 0
  inodeErrStats : Nat := 0
  argsTruncatedStats : Nat := 0
  argsSizeStats : Nat := 0
  envsTruncatedStats : Nat := 0
  envsSizeStats : Nat := 0
  deriving DecidableEq

/-- `Release` on the removed reference of an entry: decrement the ref count
and, when it reaches zero, fire the pool hook that decrements the size
gauge. Returns the state with the gauge adjusted. -/
def releaseEntry (s : RState) (e : ProcessCacheEntry) : RState :=
  if e.refCount ≤ 1 then { s with cacheSize := s.cacheSize - 1 } else s

/-- `deleteEntry`: record the exit time on the cached entry, remove it from
the pid map and release the map's reference
(`resolver_ebpf.go:598-612`). -/
def deleteEntry (s : RState) (pid : Nat) (exitTime : Nat) : RState :=
  match mapLookup s.entryCache pid with
  | none => s
  | some entry =>
    let entry := entry.Exit exitTime
    let s := { s with entryCache := mapErase s.entryCache pid }
    releaseEntry s entry

/-- One iteration of the `DequeueExited` loop body for a queued pid
(`resolver_ebpf.go:124-137`). -/
def dequeueStep (now : Nat) (s : RState) (pid : Nat) : RState :=
  match mapLookup s.entryCache pid with
  | none => s
  | some entry =>
    if entry.execTime ≠ 0 ∧ entry.execTime + timeMinute < now then
      { deleteEntry s pid now with flushedEntries := s.flushedEntries + 1 }
    else if entry.forkTime ≠ 0 ∧ entry.forkTime + timeMinute < now then
      { deleteEntry s pid now with flushedEntries := s.flushedEntries + 1 }
    else if entry.forkTime = 0 ∧ entry.execTime = 0 then
      { deleteEntry s pid now with flushedEntries := s.flushedEntries + 1 }
    else s

/-- `DequeueExited` (`resolver_ebpf.go:114-140`): walk the exited queue,
delete the entries past their grace window, then truncate the queue to
length zero (`p.exitedQueue = p.exitedQueue[0:0]`). -/
def DequeueExited (s : RState) (now : Nat) : RState :=
  let s' := s.exitedQueue.foldl (dequeueStep now) s
  { s' with exitedQueue := [] }

/-- `insertEntry` (`resolver_ebpf.go:514-538`): stamp the source, store the
entry in the pid map, retain it, release the replaced entry, bump the
per-source added counter and the size gauge. (The cgroup-collaborator
notification has no effect on the resolver state.) -/
def insertEntry (s : RState) (entry : ProcessCacheEntry)
    (prev : Option ProcessCacheEntry) (source : Source) : RState :=
  let entry := { entry with source := source }
  let entry := entry.Retain
  let s := { s with entryCache := mapInsert s.entryCache entry.pid entry }
  let s := match prev with
    | some prevE => releaseEntry s prevE
    | none => s
  let s := match source with
    | Source.event => { s with addedEntriesFromEvent := s.addedEntriesFromEvent + 1 }
    | Source.kernelMap => { s with addedEntriesFromKernelMap := s.addedEntriesFromKernelMap + 1 }
    | Source.procfs => { s with addedEntriesFromProcFS := s.addedEntriesFromProcFS + 1 }
    | Source.snapshot => s
  { s with cacheSize := s.cacheSize + 1 }

/-- `insertExecEntry` (`resolver_ebpf.go:572-596`): flag an inode mismatch
against the previous entry, coalesce exec bombs (identical identity) by
only applying the exec time to the previous entry, otherwise link the new
entry to the previous one and insert it. -/
def insertExecEntry (s : RState) (entry : ProcessCacheEntry) (inode : Nat)
    (source : Source) : RState :=
  if entry.pid = 0 then s
  else
    match mapLookup s.entryCache entry.pid with
    | some prev =>
      let (entry, s) :=
        if inode ≠ 0 ∧ prev.fileEvent.inode ≠ inode then
          ({ entry with isParentMissing := true },
           { s with inodeErrStats := s.inodeErrStats + 1 })
        else (entry, s)
      if prev.Equals entry then
        { s with entryCache := mapInsert s.entryCache entry.pid (prev.ApplyExecTimeOf entry) }
      else
        insertEntry s (prev.Exec entry) (some prev) source
    | none =>
      let entry := { entry with isParentMissing := true }
      insertEntry s entry none source

/-- Maximum size of a raw argv/envp chunk (`model.MaxArgEnvSize`). -/
def MaxArgEnvSize : Nat := 256

/-- Modelled from the spec: `model.UnmarshalStringArray` splits a raw blob
into its NUL-terminated strings; a trailing fragment with no NUL terminator
is a parse error that still yields the values read so far (including the
fragment). Returns `(values, parse error flag)`. `cur` accumulates the
characters of the string being read, in reverse. -/
def unmarshalStringArrayCore (data : List Nat) (cur : List Char) :
    List String × Bool :=
  match data with
  | [] =>
    match cur with
    | [] => ([], false)
    | _ => ([String.mk cur.reverse], true)
  | b :: rest =>
    if b = 0 then
      let (vs, e) := unmarshalStringArrayCore rest []
      (String.mk cur.reverse :: vs, e)
    else
      unmarshalStringArrayCore rest (Char.ofNat b :: cur)

/-- Modelled from the spec: entry point of the NUL-splitting parse. -/
def unmarshalStringArray (data : List Nat) : List String × Bool :=
  unmarshalStringArrayCore data []

/-- `parseStringArray` (`resolver_ebpf.go:255-267`): split the blob, and on a
parse error or a maximally-sized blob mark the result truncated, suffixing
the last value with `"..."` when at least one value was yielded. (String
interning is semantically the identity and is not modelled.) -/
def parseStringArray (data : List Nat) : List String × Bool :=
  let (values, err) := unmarshalStringArray data
  if err ∨ data.length = MaxArgEnvSize then
    match values with
    | [] => ([], true)
    | _ => (values.set (values.length - 1) ((values.getD (values.length - 1) "") ++ "..."), true)
  else
    (values, false)

/-- `newArgsEnvsCacheEntry` (`resolver_ebpf.go:269-275`). -/
def newArgsEnvsCacheEntry (data : List Nat) : ArgsEnvsCacheEntry :=
  let (values, truncated) := parseStringArray data
  { values := values, truncated := truncated }

/-- `argsEnvsCacheEntry.extend` (`resolver_ebpf.go:277-283`): append the new
chunk's values and OR the truncation bit. -/
def extendArgsEnvsCacheEntry (e : ArgsEnvsCacheEntry) (data : List Nat) :
    ArgsEnvsCacheEntry :=
  let (values, truncated) := parseStringArray data
  { values := e.values ++ values
    truncated := e.truncated || truncated }

/-- `UpdateArgsEnvs` (`resolver_ebpf.go:286-292`): extend the staged chunk
for the id or start a new one. (The LRU bound of the staging buffer is not
exercised by the claims.) -/
def UpdateArgsEnvs (s : RState) (id : Nat) (data : List Nat) : RState :=
  match mapLookup s.argsEnvsCache id with
  | some list =>
    { s with argsEnvsCache := mapInsert s.argsEnvsCache id (extendArgsEnvsCacheEntry list data) }
  | none =>
    { s with argsEnvsCache := mapInsert s.argsEnvsCache id (newArgsEnvsCacheEntry data) }

/-- The pid/tid pair of an event's process context plus the handler payloads
used by the credential-update handlers (`model.Event`, restricted to the
fields those handlers read). -/
structure Event where
  pid : Nat := 0
  tid : Nat := 0
  setuidUID : Nat := 0
  setuidEUID : Nat := 0
  setuidFSUID : Nat := 0
  setgidGID : Nat := 0
  setgidEGID : Nat := 0
  setgidFSGID : Nat := 0
  capsetCapEffective : Nat := 0
  capsetCapPermitted : Nat := 0
  loginUIDWriteAUID : Nat := 0
  imdsCredentials : AWSSecurityCredentials := {}
  eventTime : Nat := 0
  deriving DecidableEq

/-- The `e.FieldHandlers.Resolve*` collaborator calls of the credential
handlers, modelled as oracle functions from the event. -/
structure CredOracles where
  resolveSetuidUser : Event → String := fun _ => ""
  resolveSetuidEUser : Event → String := fun _ => ""
  resolveSetuidFSUser : Event → String := fun _ => ""
  resolveSetgidGroup : Event → String := fun _ => ""
  resolveSetgidEGroup : Event → String := fun _ => ""
  resolveSetgidFSGroup : Event → String := fun _ => ""

/-- `UpdateUID` (`resolver_ebpf.go:1058-1074`): ignore events from non-leader
threads, otherwise rewrite the uid credential fields of the pid's entry. -/
def UpdateUID (oc : CredOracles) (s : RState) (pid : Nat) (e : Event) : RState :=
  if e.pid ≠ e.tid then s
  else
    match mapLookup s.entryCache pid with
    | none => s
    | some entry =>
      let entry := { entry with credentials := { entry.credentials with
        uid := e.setuidUID
        user := oc.resolveSetuidUser e
        euid := e.setuidEUID
        euser := oc.resolveSetuidEUser e
        fsuid := e.setuidFSUID
        fsuser := oc.resolveSetuidFSUser e } }
      { s with entryCache := mapInsert s.entryCache pid entry }

/-- `UpdateGID` (`resolver_ebpf.go:1077-1093`). -/
def UpdateGID (oc : CredOracles) (s : RState) (pid : Nat) (e : Event) : RState :=
  if e.pid ≠ e.tid then s
  else
    match mapLookup s.entryCache pid with
    | none => s
    | some entry =>
      let entry := { entry with credentials := { entry.credentials with
        gid := e.setgidGID
        group := oc.resolveSetgidGroup e
        egid := e.setgidEGID
        egroup := oc.resolveSetgidEGroup e
        fsgid := e.setgidFSGID
        fsgroup := oc.resolveSetgidFSGroup e } }
      { s with entryCache := mapInsert s.entryCache pid entry }

/-- `UpdateCapset` (`resolver_ebpf.go:1096-1108`). -/
def UpdateCapset (s : RState) (pid : Nat) (e : Event) : RState :=
  if e.pid ≠ e.tid then s
  else
    match mapLookup s.entryCache pid with
    | none => s
    | some entry =>
      let entry := { entry with credentials := { entry.credentials with
        capEffective := e.capsetCapEffective
        capPermitted := e.capsetCapPermitted } }
      { s with entryCache := mapInsert s.entryCache pid entry }

/-- `UpdateLoginUID` (`resolver_ebpf.go:1111-1122`). -/
def UpdateLoginUID (s : RState) (pid : Nat) (e : Event) : RState :=
  if e.pid ≠ e.tid then s
  else
    match mapLookup s.entryCache pid with
    | none => s
    | some entry =>
      let entry := { entry with credentials := { entry.credentials with
        auid := e.loginUIDWriteAUID } }
      { s with entryCache := mapInsert s.entryCache pid entry }

/-- `UpdateAWSSecurityCredentials` (`resolver_ebpf.go:1125-1143`): ignore
events with an empty access key id; append the credential to the pid's
entry unless the key is already present. -/
def UpdateAWSSecurityCredentials (s : RState) (pid : Nat) (e : Event) : RState :=
  if e.imdsCredentials.accessKeyID = "" then s
  else
    match mapLookup s.entryCache pid with
    | none => s
    | some entry =>
      if entry.awsSecurityCredentials.any
          (fun key => key.accessKeyID = e.imdsCredentials.accessKeyID) then s
      else
        let entry := { entry with awsSecurityCredentials :=
          entry.awsSecurityCredentials ++ [e.imdsCredentials] }
        { s with entryCache := mapInsert s.entryCache pid entry }

/-- The descending index list built by the pruning loop of
`FetchAWSSecurityCredentials` (`toDelete`). -/
def fetchToDelete (creds : List AWSSecurityCredentials) (t : Nat) : List Nat :=
  (creds.enum.foldl
    (fun acc idkey => if idkey.2.expiration < t then idkey.1 :: acc else acc) [])

/-- The deletion loop of `FetchAWSSecurityCredentials`:
`creds = append(creds[0:id], creds[id+1:]...)` for each queued index. -/
def fetchDeleteIds (creds : List AWSSecurityCredentials) (ids : List Nat) :
    List AWSSecurityCredentials :=
  ids.foldl (fun cs id => cs.take id ++ cs.drop (id + 1)) creds

/-- `FetchAWSSecurityCredentials` (`resolver_ebpf.go:1147-1169`): prune the
credentials that expired before the event time and return the remainder. -/
def FetchAWSSecurityCredentials (s : RState) (e : Event) :
    List AWSSecurityCredentials × RState :=
  match mapLookup s.entryCache e.pid with
  | none => ([], s)
  | some entry =>
    let toDelete := fetchToDelete entry.awsSecurityCredentials e.eventTime
    let creds := fetchDeleteIds entry.awsSecurityCredentials toDelete
    let entry := { entry with awsSecurityCredentials := creds }
    (creds, { s with entryCache := mapInsert s.entryCache e.pid entry })

/-- Result of a successful `PathResolver.ResolveFileFieldsPath` collaborator
call: pathname, mount path, mount source and mount origin. -/
structure PathRes where
  pathnameStr : String := ""
  mountPath : String := ""
  mountSource : Nat := 0
  mountOrigin : Nat := 0
  deriving DecidableEq

/-- Go `path.Base`: the last element of the path after removing trailing
slashes; `"."` for the empty string, `"/"` for all-slash paths. -/
def pathBase (s : String) : String :=
  match s.data with
  | [] => "."
  | cs =>
    let rev := cs.reverse.dropWhile (fun c => c = '/')
    match rev with
    | [] => "/"
    | _ => String.mk (rev.takeWhile (fun c => c ≠ '/')).reverse

/-- Go `path.IsAbs`. -/
def isAbs (s : String) : Bool :=
  match s.data with
  | [] => false
  | c :: _ => c = '/'

/-- Modelled from the spec: `setPathname` (defined in the resolver package
outside this file) stores the resolved pathname on the file event (cleared
for fileless executables) and its base name. -/
def setPathname (fe : FileEvent) (pathnameStr : String) : FileEvent :=
  if fe.isFileless then
    { fe with pathnameStr := "", basenameStr := pathBase pathnameStr }
  else
    { fe with pathnameStr := pathnameStr, basenameStr := pathBase pathnameStr }

/-- The fixed retry budget of `resolveFileFieldsPath` (`maxDepthRetry`). -/
def maxDepthRetry : Nat := 3

/-- The `for maxDepthRetry > 0` loop of `resolveFileFieldsPath`
(`resolver_ebpf.go:676-688`): attempt the path-resolver collaborator with
the current entry's pid context; on failure move to the parent entry from
the pid map and try again while the budget lasts, returning the last
error when the budget is exhausted or no parent exists. -/
def resolveFileFieldsPathLoop (pr : Nat → Except Unit PathRes)
    (cache : List (Nat × ProcessCacheEntry)) :
    Nat → ProcessCacheEntry → Except Unit PathRes
  | 0, _ => Except.error ()
  | n + 1, pce =>
    match pr pce.pid with
    | Except.ok r => Except.ok r
    | Except.error e =>
      match mapLookup cache pce.ppid with
      | none => Except.error e
      | some parent => resolveFileFieldsPathLoop pr cache n parent

/-- `resolveFileFieldsPath` (`resolver_ebpf.go:667-691`). -/
def resolveFileFieldsPath (pr : Nat → Except Unit PathRes)
    (cache : List (Nat × ProcessCacheEntry)) (pce : ProcessCacheEntry) :
    Except Unit PathRes :=
  resolveFileFieldsPathLoop pr cache maxDepthRetry pce

/-- `SetProcessPath` (`resolver_ebpf.go:694-718`): resolve the file event's
path; on a zero inode or a resolution failure clear the pathname and
basename, bump the path-error counter and report the error (the `Bool`
component). On success install pathname, basename, mount path, mount
source and mount origin. Returns the updated state, the updated file
event, the returned pathname and the error flag. -/
def SetProcessPath (pr : Nat → Except Unit PathRes) (s : RState)
    (fileEvent : FileEvent) (pce : ProcessCacheEntry) :
    RState × FileEvent × String × Bool :=
  if fileEvent.inode = 0 then
    ({ s with pathErrStats := s.pathErrStats + 1 },
     { fileEvent with pathnameStr := "", basenameStr := "" }, "", true)
  else
    match resolveFileFieldsPath pr s.entryCache pce with
    | Except.error _ =>
      ({ s with pathErrStats := s.pathErrStats + 1 },
       { fileEvent with pathnameStr := "", basenameStr := "" }, "", true)
    | Except.ok r =>
      let fileEvent := setPathname fileEvent r.pathnameStr
      let fileEvent := { fileEvent with
        mountPath := r.mountPath
        mountSource := r.mountSource
        mountOrigin := r.mountOrigin }
      (s, fileEvent, fileEvent.pathnameStr, false)

/-- `procResolveMaxDepth`. -/
def procResolveMaxDepth : Nat := 16

/-- The `model.MountOrigin*` / `model.MountSource*` constants used by the
snapshot path. -/
def MountOriginProcfs : Nat := 2

/-- `model.MountSourceSnapshot`. -/
def MountSourceSnapshot : Nat := 2

/-- The decodable payload of a `pid_cache` row after its leading cookie
(`entry.UnmarshalPidCacheBinary`): fork/exit times and the parent pid.
`none` models a decode error. -/
structure PidCacheDecode where
  forkTime : Nat := 0
  exitTime : Nat := 0
  ppid : Nat := 0
  deriving DecidableEq

/-- A `pid_cache` row: the leading cookie plus the rest of the blob. -/
structure PidCacheBlob where
  cookie : Nat := 0
  decode : Option PidCacheDecode := none
  deriving DecidableEq

/-- The result of `entry.UnmarshalProcEntryBinary` on a `proc_cache` row:
the exec file event's inode, the exec timestamp and the argv/envp staging
ids. `none` models a decode error. -/
structure ProcEntryDecode where
  fileInode : Nat := 0
  mountID : Nat := 0
  execTime : Nat := 0
  comm : String := ""
  containerID : String := ""
  argsID : Nat := 0
  envsID : Nat := 0
  argsTruncated : Bool := false
  envsTruncated : Bool := false
  deriving DecidableEq

/-- A `proc_cache` row as seen through its three decode steps: container
context, cgroup context and the proc entry itself; `none` in a component
models the corresponding `UnmarshalBinary` error. -/
structure ProcCacheBlob where
  ctr : Option String := none
  cgroup : Option Unit := none
  procEntry : Option ProcEntryDecode := none
  deriving DecidableEq

/-- `/proc/<pid>` metadata as returned by `utils.GetFilledProcess`. -/
structure FilledProc where
  pid : Nat := 0
  ppid : Nat := 0
  createTime : Nat := 0
  name : String := ""
  uids : List Nat := []
  gids : List Nat := []
  cmdline : List String := []
  memVMS : Nat := 0
  deriving DecidableEq

/-- All external collaborators of the resolver, modelled as pure oracle
functions: kernel shadow maps, procfs reads, the path / mount / container /
user-group / env-vars / time resolvers and the procfs rate limiter. -/
structure Oracles where
  pathResolver : Nat → Except Unit PathRes := fun _ => Except.error ()
  pidCacheLookup : Nat → Option PidCacheBlob := fun _ => none
  procCacheLookup : Nat → Option ProcCacheBlob := fun _ => none
  execFileCache : Nat → Option FileFields := fun _ => none
  statInode : String → Option Nat := fun _ => none
  newProcess : Nat → Bool := fun _ => false
  getFilledProcess : Nat → Option FilledProc := fun _ => none
  readlinkExe : Nat → Option String := fun _ => none
  getContainerContext : Nat → Option (String × Nat) := fun _ => none
  getCgroupFromContainer : String → Nat → String := fun cid _ => cid
  statxCgroupTask : Nat → Option (Nat × Nat) := fun _ => none
  cgroupTaskFileContent : Nat → Option String := fun _ => none
  resolveFilesystem : Nat → Except Unit String := fun _ => Except.error ()
  getLoginUID : Nat → Option Nat := fun _ => none
  capEffCapEprm : Nat → Option (Nat × Nat) := fun _ => none
  resolveUser : Nat → String := fun _ => ""
  resolveGroup : Nat → String := fun _ => ""
  resolveEnvVars : Nat → Option (List String × Bool) := fun _ => none
  pidTTY : Nat → String := fun _ => ""
  netnsFromPid : Nat → Nat := fun _ => 0
  applyBootTime : Nat → Nat := fun t => t
  newCookie : Nat := 0
  allowProcFallback : Nat → Bool := fun _ => false
  ttyFallbackEnabled : Bool := false

/-- `utils.ProcExePath`. -/
def procExePath (pid : Nat) : String :=
  "/proc/" ++ toString pid ++ "/exe"

/-- `utils.CgroupTaskPath pid pid`. -/
def cgroupTaskPath (pid : Nat) : String :=
  "/proc/" ++ toString pid ++ "/task/" ++ toString pid ++ "/cgroup"

/-- `NewProcessCacheEntry` (`resolver_ebpf.go:143-148`): a pooled zeroed
entry (`refCount = 1`) with the pid context installed and a fresh cookie. -/
def NewProcessCacheEntryF (or : Oracles) (pid tid execInode : Nat) :
    ProcessCacheEntry :=
  { pid := pid, tid := tid, execInode := execInode,
    cookie := or.newCookie, refCount := 1 }

/-- `retrieveExecFileFields` (`resolver_ebpf.go:483-512`): stat the binary
for its inode, look it up in the `exec_file_cache` kernel map, reject a
zero inode in the decoded fields. -/
def retrieveExecFileFields (or : Oracles) (path : String) :
    Except Unit FileFields :=
  match or.statInode path with
  | none => Except.error ()
  | some inode =>
    match or.execFileCache inode with
    | none => Except.error ()
    | some fileFields =>
      if fileFields.inode = 0 then Except.error () else Except.ok fileFields

/-- The cgroup-file parse of `enrichEventFromProc`
(`resolver_ebpf.go:372-385`): take the first line that splits into three
`:`-separated parts (`strings.SplitN(line, ":", 3)`) and keep the third. -/
def firstCgroupID (lines : List String) : Option String :=
  match lines with
  | [] => none
  | line :: rest =>
    let parts := line.splitOn ":"
    if parts.length ≥ 3 then
      some (String.intercalate ":" (parts.drop 2))
    else
      firstCgroupID rest

/-- `SetProcessUsersGroups` (`resolver_ebpf.go:1040-1048`). -/
def SetProcessUsersGroupsF (or : Oracles) (pce : ProcessCacheEntry) :
    ProcessCacheEntry :=
  { pce with
    user := or.resolveUser pce.credentials.uid
    euser := or.resolveUser pce.credentials.euid
    fsuser := or.resolveUser pce.credentials.fsuid
    group := or.resolveGroup pce.credentials.gid
    egroup := or.resolveGroup pce.credentials.egid
    fsgroup := or.resolveGroup pce.credentials.fsgid }

/-- Stage of `enrichEventFromProc` (`resolver_ebpf.go:348-354`): install
the exec-file fields and the pathname on the entry's file event, forcing
the procfs mount origin and the snapshot mount source, and record the
container flags on the cgroup context. -/
def enrichFileEvent (entry : ProcessCacheEntry) (info : FileFields)
    (pathnameStr : String) (containerFlags : Nat) : ProcessCacheEntry :=
  let fe := { entry.fileEvent with
    inode := info.inode, mountID := info.mountID, isFileless := info.isFileless }
  let fe := setPathname fe pathnameStr
  let fe := { fe with
    mountOrigin := MountOriginProcfs
    mountSource := MountSourceSnapshot }
  { entry with fileEvent := fe, cgroupFlags := containerFlags }

/-- Stage of `enrichEventFromProc` (`resolver_ebpf.go:356-385`): cgroup file
stats via `statx` with the exec-file-cache fallback for the mount id, and
the cgroup id parsed from the task cgroup file. -/
def enrichCGroup (or : Oracles) (pid : Nat) (entry : ProcessCacheEntry) :
    ProcessCacheEntry :=
  let entry :=
    match or.statxCgroupTask pid with
    | some (mntID, ino) =>
      { entry with cgroupFileMountID := mntID, cgroupFileInode := ino }
    | none =>
      match retrieveExecFileFields or (cgroupTaskPath pid) with
      | Except.ok info2 => { entry with cgroupFileMountID := info2.mountID }
      | Except.error _ => entry
  match or.cgroupTaskFileContent pid with
  | some content =>
    match firstCgroupID (content.splitOn "\n") with
    | some cgroupID => { entry with cgroupID := cgroupID }
    | none => entry
  | none => entry

/-- Stage of `enrichEventFromProc` (`resolver_ebpf.go:387-395`): tmpfs for
fileless binaries, otherwise the mount resolver's filesystem (a failure is
only logged). -/
def enrichFilesystem (or : Oracles) (pid : Nat) (entry : ProcessCacheEntry) :
    ProcessCacheEntry :=
  if entry.fileEvent.isFileless then
    { entry with fileEvent := { entry.fileEvent with filesystem := "tmpfs" } }
  else
    match or.resolveFilesystem pid with
    | Except.ok fs => { entry with fileEvent := { entry.fileEvent with filesystem := fs } }
    | Except.error _ => entry

/-- Stage of `enrichEventFromProc` (`resolver_ebpf.go:397-413`): exec/fork
times from the create time, comm, ppid, tty, the pid context and the
uid/gid triples (indices 0, 1 and 3, only when four values are present). -/
def enrichTimesAndIds (or : Oracles) (pid : Nat) (filled : FilledProc)
    (entry : ProcessCacheEntry) : ProcessCacheEntry :=
  let entry := { entry with
    execTime := filled.createTime
    forkTime := filled.createTime
    comm := filled.name
    ppid := filled.ppid
    ttyName := or.pidTTY pid
    pid := pid
    tid := pid }
  let entry :=
    if filled.uids.length ≥ 4 then
      { entry with credentials := { entry.credentials with
        uid := filled.uids.getD 0 0
        euid := filled.uids.getD 1 0
        fsuid := filled.uids.getD 3 0 } }
    else entry
  if filled.gids.length ≥ 4 then
    { entry with credentials := { entry.credentials with
      gid := filled.gids.getD 0 0
      egid := filled.gids.getD 1 0
      fsgid := filled.gids.getD 3 0 } }
  else entry

/-- Stage of `enrichEventFromProc` (`resolver_ebpf.go:414-423`): the audit
uid and the capability sets. -/
def enrichCreds (auid capEff capPrm : Nat) (entry : ProcessCacheEntry) :
    ProcessCacheEntry :=
  { entry with credentials := { entry.credentials with
    auid := auid, capEffective := capEff, capPermitted := capPrm } }

/-- Stage of `enrichEventFromProc` (`resolver_ebpf.go:426-436`): argv from
the proc cmdline and envs from the env-vars resolver. -/
def enrichArgsEnvs (or : Oracles) (pid : Nat) (filled : FilledProc)
    (entry : ProcessCacheEntry) : ProcessCacheEntry :=
  let entry := { entry with argsValues := filled.cmdline, argsEntryTruncated := false }
  match or.resolveEnvVars pid with
  | some (envs, truncated) =>
    { entry with envsValues := envs, envsEntryTruncated := truncated }
  | none => { entry with envsValues := [], envsEntryTruncated := false }

/-- Stage of `enrichEventFromProc` (`resolver_ebpf.go:438-472`): the
interpreter heuristic (a multi-argument command whose last argument's base
name is the comm and whose first argument is absolute), clearing the
interpreter file event when the heuristic does not fire, and the netns
id. -/
def enrichInterpreter (or : Oracles) (pid : Nat)
    (entry : ProcessCacheEntry) : ProcessCacheEntry :=
  let entry :=
    if entry.argsValues.length > 1 then
      let firstArg := entry.argsValues.getD 0 ""
      let lastArg := entry.argsValues.getD (entry.argsValues.length - 1) ""
      if pathBase lastArg = entry.comm ∧ isAbs firstArg then
        { entry with linuxBinprm := entry.fileEvent }
      else entry
    else entry
  let entry :=
    if entry.HasInterpreter = false then
      { entry with linuxBinprm := { entry.linuxBinprm with
        pathnameStr := "", basenameStr := "" } }
    else entry
  { entry with netns := or.netnsFromPid pid }

/-- The success path of `enrichEventFromProc` once every fallible lookup
has answered: the stage functions applied in source order. -/
def enrichBuild (or : Oracles) (pid : Nat) (filled : FilledProc)
    (pathnameStr : String) (info : FileFields)
    (containerFlags auid capEff capPrm : Nat)
    (entry : ProcessCacheEntry) : ProcessCacheEntry :=
  let entry := enrichFileEvent entry info pathnameStr containerFlags
  let entry := enrichCGroup or pid entry
  let entry := enrichFilesystem or pid entry
  let entry := enrichTimesAndIds or pid filled entry
  let entry := enrichCreds auid capEff capPrm entry
  let entry := SetProcessUsersGroupsF or entry
  let entry := enrichArgsEnvs or pid filled entry
  enrichInterpreter or pid entry

/-- `enrichEventFromProc` (`resolver_ebpf.go:319-480`): build a cache entry
from `/proc/<pid>` metadata; errors (kernel thread, unreadable or deleted
binary, missing exec-file-cache row, container lookup, login uid or
capability failures) abort without inserting. The fallible lookups are
grouped ahead of the pure enrichment stages; since every failure aborts
with the same error and the stages in between are pure, this is
observationally the source's early-return ladder. -/
def enrichEventFromProc (or : Oracles) (entry : ProcessCacheEntry)
    (pid : Nat) (filled : FilledProc) : Except Unit ProcessCacheEntry :=
  if filled.memVMS = 0 then Except.error ()
  else
    match or.readlinkExe pid with
    | none => Except.error ()
    | some pathnameStr =>
      if pathnameStr = "/ (deleted)" then Except.error ()
      else
        match retrieveExecFileFields or (procExePath pid) with
        | Except.error _ => Except.error ()
        | Except.ok info =>
          match or.getContainerContext pid with
          | none => Except.error ()
          | some (_containerID, containerFlags) =>
            match or.getLoginUID pid with
            | none => Except.error ()
            | some auid =>
              match or.capEffCapEprm pid with
              | none => Except.error ()
              | some (capEff, capPrm) =>
                Except.ok (enrichBuild or pid filled pathnameStr info
                  containerFlags auid capEff capPrm entry)

/-- `SetProcessArgs` (`resolver_ebpf.go:953-968`): claim the staged argv
values for the entry's args id and drop them from the staging buffer. -/
def SetProcessArgsF (s : RState) (pce : ProcessCacheEntry) :
    RState × ProcessCacheEntry :=
  match mapLookup s.argsEnvsCache pce.argsID with
  | none => (s, pce)
  | some entry =>
    let s :=
      if pce.argsTruncated then
        { s with argsTruncatedStats := s.argsTruncatedStats + 1 }
      else s
    let s := { s with argsSizeStats := s.argsSizeStats + entry.values.length }
    let pce := { pce with
      argsValues := entry.values
      argsEntryTruncated := entry.truncated }
    ({ s with argsEnvsCache := mapErase s.argsEnvsCache pce.argsID }, pce)

/-- `SetProcessEnvs` (`resolver_ebpf.go:989-1005`). -/
def SetProcessEnvsF (s : RState) (pce : ProcessCacheEntry) :
    RState × ProcessCacheEntry :=
  match mapLookup s.argsEnvsCache pce.envsID with
  | none => (s, pce)
  | some entry =>
    let s :=
      if pce.envsTruncated then
        { s with envsTruncatedStats := s.envsTruncatedStats + 1 }
      else s
    let s := { s with envsSizeStats := s.envsSizeStats + entry.values.length }
    let pce := { pce with
      envsValues := entry.values
      envsEntryTruncated := entry.truncated }
    ({ s with argsEnvsCache := mapErase s.argsEnvsCache pce.envsID }, pce)

/-- `SetProcessTTY` (`resolver_ebpf.go:1031-1037`). -/
def SetProcessTTYF (or : Oracles) (pce : ProcessCacheEntry) :
    ProcessCacheEntry :=
  if pce.ttyName = "" ∧ or.ttyFallbackEnabled then
    { pce with ttyName := or.pidTTY pce.pid }
  else pce

/-- `ApplyBootTime` (`resolver_ebpf.go:748-752`). -/
def ApplyBootTimeF (or : Oracles) (pce : ProcessCacheEntry) :
    ProcessCacheEntry :=
  { pce with
    execTime := or.applyBootTime pce.execTime
    forkTime := or.applyBootTime pce.forkTime
    exitTime := or.applyBootTime pce.exitTime }

/-- Modelled from the spec: `IsBusybox` (defined outside this file) — the
busybox multiplexer binary. -/
def IsBusybox (pathname : String) : Bool :=
  pathname = "/bin/busybox" ∨ pathname = "/usr/bin/busybox"

/-- `SetProcessSymlink` (`resolver_ebpf.go:721-732`): busybox workaround
mapping arg0 to its `/bin` and `/usr/bin` names. -/
def SetProcessSymlinkF (pce : ProcessCacheEntry) : ProcessCacheEntry :=
  if IsBusybox pce.fileEvent.pathnameStr then
    let arg0 := pce.argsValues.getD 0 ""
    let base := pathBase arg0
    { pce with
      symlinkPathname0 := "/bin/" ++ base
      symlinkPathname1 := "/usr/bin/" ++ base
      symlinkBasename := base }
  else pce

/-- `SetProcessFilesystem` (`resolver_ebpf.go:735-745`). -/
def SetProcessFilesystemF (or : Oracles) (pce : ProcessCacheEntry) :
    Except Unit ProcessCacheEntry :=
  if pce.fileEvent.mountID ≠ 0 then
    match or.resolveFilesystem pce.pid with
    | Except.error e => Except.error e
    | Except.ok fs =>
      Except.ok { pce with fileEvent := { pce.fileEvent with filesystem := fs } }
  else Except.ok pce

/-- `ResolveNewProcessCacheEntry` (`resolver_ebpf.go:781-806`): resolve the
exec path (and the interpreter path when present), claim argv/envp, tty,
user/group names, boot-time adjust, symlink rewrite and filesystem. -/
def ResolveNewProcessCacheEntryF (or : Oracles) (s : RState)
    (entry : ProcessCacheEntry) : Except Unit ProcessCacheEntry × RState :=
  match SetProcessPath or.pathResolver s entry.fileEvent entry with
  | (s, _, _, true) => (Except.error (), s)
  | (s, fe, _, false) =>
    let entry := { entry with fileEvent := fe }
    let step2 : Except Unit ProcessCacheEntry × RState :=
      if entry.HasInterpreter then
        match SetProcessPath or.pathResolver s entry.linuxBinprm entry with
        | (s, _, _, true) => (Except.error (), s)
        | (s, fe2, _, false) => (Except.ok { entry with linuxBinprm := fe2 }, s)
      else
        (Except.ok { entry with linuxBinprm := { entry.linuxBinprm with
          pathnameStr := "", basenameStr := "" } }, s)
    match step2 with
    | (Except.error e, s) => (Except.error e, s)
    | (Except.ok entry, s) =>
      let (s, entry) := SetProcessArgsF s entry
      let (s, entry) := SetProcessEnvsF s entry
      let entry := SetProcessTTYF or entry
      let entry := SetProcessUsersGroupsF or entry
      let entry := ApplyBootTimeF or entry
      let entry := SetProcessSymlinkF entry
      match SetProcessFilesystemF or entry with
      | Except.error e => (Except.error e, s)
      | Except.ok entry => (Except.ok entry, s)

/-- `resolveFromCache` (`resolver_ebpf.go:761-778`): pid-map lookup with
inode validation; a hit refreshes the entry's tid. -/
def resolveFromCacheF (s : RState) (pid tid inode : Nat) :
    Option ProcessCacheEntry × RState :=
  match mapLookup s.entryCache pid with
  | none => (none, s)
  | some entry =>
    if inode ≠ 0 ∧ inode ≠ entry.fileEvent.inode then (none, s)
    else
      let entry := { entry with tid := tid }
      (some entry, { s with entryCache := mapInsert s.entryCache pid entry })

/-- `setAncestor` (`resolver_ebpf.go:1239-1244`). -/
def setAncestorF (s : RState) (pce : ProcessCacheEntry) : ProcessCacheEntry :=
  match mapLookup s.entryCache pce.ppid with
  | some parent => pce.SetAncestor parent
  | none => pce

/-- `syncCache` (`resolver_ebpf.go:1247-1305`): snapshot one pid. An entry
already cached only has its ancestor refreshed; otherwise a new entry is
enriched from procfs, linked to its parent and inserted (the kernel-map
write-back has no observable effect on the resolver state). Returns the
entry and whether the cache was updated. -/
def syncCacheF (or : Oracles) (s : RState) (pid : Nat) (filled : FilledProc)
    (source : Source) : (Option ProcessCacheEntry × Bool) × RState :=
  match mapLookup s.entryCache pid with
  | some entry =>
    let entry := setAncestorF s entry
    ((some entry, false),
     { s with entryCache := mapInsert s.entryCache pid entry })
  | none =>
    let entry := NewProcessCacheEntryF or pid pid 0
    let entry := { entry with isThread := true }
    match enrichEventFromProc or entry pid filled with
    | Except.error _ => ((none, false), releaseEntry s entry)
    | Except.ok entry =>
      let entry :=
        match mapLookup s.entryCache entry.ppid with
        | some parent =>
          if parent.Equals entry then entry.SetParentOfForkChild parent
          else entry.SetAncestor parent
        | none => entry
      let s := insertEntry s entry (mapLookup s.entryCache pid) source
      ((mapLookup s.entryCache pid, true), s)

/-- `resolveFromProcfs` (`resolver_ebpf.go:903-950`): depth-bounded
recursive snapshot of a pid and its ancestors from procfs. -/
def resolveFromProcfsF (or : Oracles) (s : RState) (pid : Nat) :
    Nat → Option ProcessCacheEntry × RState
  | 0 => (none, s)
  | maxDepth + 1 =>
    if pid = 0 then (none, s)
    else if or.newProcess pid = false then (none, s)
    else
      match or.getFilledProcess pid with
      | none => (none, s)
      | some filled =>
        if filled.ppid = 2 ∨ filled.pid = 2 then (none, s)
        else
          match syncCacheF or s pid filled Source.procfs with
          | ((none, _), s) => (none, s)
          | ((some entry, inserted), s) =>
            let entry := { entry with
              isKworker := filled.ppid = 0 ∧ filled.pid ≠ 1 }
            let s := { s with entryCache := mapInsert s.entryCache pid entry }
            let (parentOpt, s) := resolveFromProcfsF or s filled.ppid maxDepth
            match parentOpt with
            | some parent =>
              if inserted then
                let entry :=
                  if parent.Equals entry then entry.SetParentOfForkChild parent
                  else entry.SetAncestor parent
                (some entry,
                 { s with entryCache := mapInsert s.entryCache pid entry })
              else (some entry, s)
            | none => (some entry, s)

/-- The type of the recursive `resolve` call used by `insertForkEntry` to
recover a missing parent: state, pid, tid, inode, useProcFS. -/
def ResolveSub : Type :=
  RState → Nat → Nat → Nat → Bool → Option ProcessCacheEntry × RState

/-- `insertForkEntry` (`resolver_ebpf.go:540-570`), parameterized by the
resolver used to recover a missing or mismatching parent (`resolveSub` is
the fuel-indexed `resolve` one recursion level down). A previous entry
under the same pid is exited at the child's fork time and replaced. -/
def insertForkEntryWith (resolveSub : ResolveSub) (s : RState)
    (entry : ProcessCacheEntry) (inode : Nat) (source : Source) : RState :=
  if entry.pid = 0 then s
  else
    let prev := (mapLookup s.entryCache entry.pid).map (fun p => p.Exit entry.forkTime)
    let s :=
      match prev with
      | some p => { s with entryCache := mapInsert s.entryCache entry.pid p }
      | none => s
    let (entry, s) :=
      if entry.pid ≠ 1 then
        let parent := mapLookup s.entryCache entry.ppid
        let parentInodeDiffers : Bool :=
          match parent with
          | none => true
          | some pe => pe.fileEvent.inode != inode
        let (parent, entry, s) :=
          if entry.ppid ≥ 1 ∧ inode ≠ 0 ∧ parentInodeDiffers = true then
            match resolveSub s entry.ppid entry.ppid inode true with
            | (some candidate, s) => (some candidate, entry, s)
            | (none, s) =>
              (parent, { entry with isParentMissing := true },
               { s with inodeErrStats := s.inodeErrStats + 1 })
          else (parent, entry, s)
        match parent with
        | some p => (p.Fork entry, s)
        | none => ({ entry with isParentMissing := true }, s)
      else (entry, s)
    insertEntry s entry prev source

/-- `resolveFromKernelMaps` (`resolver_ebpf.go:815-894`): look up the
`pid_cache` row, follow its cookie into `proc_cache`, decode container,
cgroup, proc-entry and pid-cache payloads, validate the decoded file inode
against the exec inode, enrich the entry and insert it as a fork or exec
entry depending on the exec time. The Go function returns the entry
pointer it inserted; the model returns the cache's value for the pid. -/
def resolveFromKernelMapsWith (resolveSub : ResolveSub) (or : Oracles)
    (s : RState) (pid tid inode : Nat) : Option ProcessCacheEntry × RState :=
  if pid = 0 then (none, s)
  else
    match or.pidCacheLookup pid with
    | none => (none, s)
    | some pidCache =>
      match or.procCacheLookup pidCache.cookie with
      | none => (none, s)
      | some procCache =>
        let entry := NewProcessCacheEntryF or pid tid inode
        match procCache.ctr with
        | none => (none, s)
        | some _ctrCtx =>
          match procCache.cgroup with
          | none => (none, s)
          | some _ =>
            match procCache.procEntry with
            | none => (none, s)
            | some d =>
              let entry := { entry with
                fileEvent := { entry.fileEvent with
                  inode := d.fileInode, mountID := d.mountID }
                execTime := d.execTime
                comm := d.comm
                containerID := d.containerID
                argsID := d.argsID
                envsID := d.envsID
                argsTruncated := d.argsTruncated
                envsTruncated := d.envsTruncated }
              if entry.fileEvent.inode ≠ 0 ∧ entry.fileEvent.inode ≠ entry.execInode then
                (none, s)
              else
                match pidCache.decode with
                | none => (none, s)
                | some pd =>
                  let entry := { entry with
                    forkTime := pd.forkTime
                    exitTime := pd.exitTime
                    ppid := pd.ppid }
                  match ResolveNewProcessCacheEntryF or s entry with
                  | (Except.error _, s) => (none, s)
                  | (Except.ok entry, s) =>
                    let entry :=
                      if entry.containerID = "" then
                        match or.getContainerContext pid with
                        | some (cid, flags) =>
                          { entry with
                            cgroupFlags := flags
                            cgroupID := or.getCgroupFromContainer cid flags }
                        | none => entry
                      else entry
                    if entry.execTime = 0 then
                      let s := insertForkEntryWith resolveSub s entry
                        entry.fileEvent.inode Source.kernelMap
                      (mapLookup s.entryCache pid, s)
                    else
                      let s := insertExecEntry s entry 0 Source.kernelMap
                      (mapLookup s.entryCache pid, s)

/-- `resolve` (`resolver_ebpf.go:634-665`), parameterized like
`insertForkEntryWith`: cache tier, snapshot-state gate, kernel-map tier,
rate-limited procfs tier, miss accounting. -/
def resolveWith (resolveSub : ResolveSub) (or : Oracles) (s : RState)
    (pid tid inode : Nat) (useProcFS : Bool) :
    Option ProcessCacheEntry × RState :=
  match resolveFromCacheF s pid tid inode with
  | (some entry, s) => (some entry, { s with hitsCache := s.hitsCache + 1 })
  | (none, s) =>
    if s.state ≠ RunState.snapshotted then (none, s)
    else
      match resolveFromKernelMapsWith resolveSub or s pid tid inode with
      | (some entry, s) => (some entry, { s with hitsKernelMaps := s.hitsKernelMaps + 1 })
      | (none, s) =>
        if useProcFS = false then (none, { s with missStats := s.missStats + 1 })
        else if or.allowProcFallback pid then
          match resolveFromProcfsF or s pid procResolveMaxDepth with
          | (some entry, s) => (some entry, { s with hitsProcfs := s.hitsProcfs + 1 })
          | (none, s) => (none, { s with missStats := s.missStats + 1 })
        else (none, { s with missStats := s.missStats + 1 })

/-- The fuel-indexed `resolve`: in the Go source `resolve`,
`resolveFromKernelMaps` and `insertForkEntry` are mutually recursive
through the missing-parent recovery; the fuel bounds that recursion depth
and is a ghost parameter (theorems hold for every fuel, or are evaluated
at an ample concrete fuel). At fuel zero the nested parent resolution
reports a miss. -/
def resolveF : Nat → Oracles → RState → Nat → Nat → Nat → Bool →
    Option ProcessCacheEntry × RState
  | 0, or, s, pid, tid, inode, useProcFS =>
    resolveWith (fun s _ _ _ _ => (none, s)) or s pid tid inode useProcFS
  | fuel + 1, or, s, pid, tid, inode, useProcFS =>
    resolveWith (resolveF fuel or) or s pid tid inode useProcFS

/-- `Resolve` (`resolver_ebpf.go:623-632`): the public entry point rejects
pid 0. -/
def Resolve (fuel : Nat) (or : Oracles) (s : RState) (pid tid inode : Nat)
    (useProcFS : Bool) : Option ProcessCacheEntry × RState :=
  if pid = 0 then (none, s)
  else resolveF fuel or s pid tid inode useProcFS

/-- `AddForkEntry` (`resolver_ebpf.go:295-304`). -/
def AddForkEntry (fuel : Nat) (or : Oracles) (s : RState)
    (entry : ProcessCacheEntry) (inode : Nat) : RState :=
  if entry.pid = 0 then s
  else insertForkEntryWith (resolveF fuel or) s entry inode Source.event

/-- `AddExecEntry` (`resolver_ebpf.go:307-316`). -/
def AddExecEntry (s : RState) (entry : ProcessCacheEntry) (inode : Nat) : RState :=
  if entry.pid = 0 then s
  else insertExecEntry s entry inode Source.event

/-- `SyncCache` (`resolver_ebpf.go:1223-1237`): snapshot one pid with the
`snapshot` source tag. -/
def SyncCacheF (or : Oracles) (s : RState) (pid : Nat) : Bool × RState :=
  match or.getFilledProcess pid with
  | none => (false, s)
  | some filled =>
    match syncCacheF or s pid filled Source.snapshot with
    | ((_, ret), s) => (ret, s)

/-- One timer tick of the janitor `cacheFlush` (`resolver_ebpf.go:1191-1220`):
every cached pid absent from the live procfs pid list is pushed onto the
exited queue. -/
def cacheFlushTick (procPids : List Nat) (s : RState) : RState :=
  let toAdd := s.entryCache.filterMap
    (fun kv => if kv.1 ∈ procPids then none else some kv.1)
  { s with exitedQueue := s.exitedQueue ++ toAdd }

/-- A concrete `/proc/9` record used by the concrete evaluations below. -/
def snapFilled : FilledProc :=
  { pid := 9, ppid := 1, createTime := 5, name := "sh", memVMS := 100 }

/-- A concrete oracle bundle under which the procfs snapshot of pid 9
succeeds: the binary readlink, the exec-file-cache row, the container
lookup, the login uid and the capability read all answer; pid 9 exists in
procfs and the rate limiter admits every pid. -/
def snapOracle : Oracles :=
  { getFilledProcess := fun p => if p = 9 then some snapFilled else none
    readlinkExe := fun p => if p = 9 then some "/bin/sh" else none
    statInode := fun path => if path = "/proc/9/exe" then some 11 else none
    execFileCache := fun ino => if ino = 11 then some { inode := 11, mountID := 3 } else none
    getContainerContext := fun _ => some ("", 0)
    getLoginUID := fun _ => some 0
    capEffCapEprm := fun _ => some (0, 0)
    newProcess := fun p => p == 9
    allowProcFallback := fun _ => true }

/-- The deletion condition applied by `DequeueExited` to an entry, used by
the characterization theorems: exec time set and more than a minute old,
or fork time set and more than a minute old, or neither time set. -/
def graceExpired (e : ProcessCacheEntry) (now : Nat) : Prop :=
  (e.execTime ≠ 0 ∧ e.execTime + timeMinute < now) ∨
  (e.forkTime ≠ 0 ∧ e.forkTime + timeMinute < now) ∨
  (e.forkTime = 0 ∧ e.execTime = 0)

instance (e : ProcessCacheEntry) (now : Nat) : Decidable (graceExpired e now) := by
  unfold graceExpired
  infer_instance

/-- The k-th entry of the ancestor chain that `resolveFileFieldsPath` walks:
`ancestorAt cache 0 pce = pce` and each step follows `ppid` through the pid
map. Used to characterize the retry loop. -/
def ancestorAt (cache : List (Nat × ProcessCacheEntry)) :
    Nat → ProcessCacheEntry → Option ProcessCacheEntry
  | 0, pce => some pce
  | k + 1, pce =>
    match mapLookup cache pce.ppid with
    | none => none
    | some parent => ancestorAt cache k parent

/-- A minimal entry with a pid and a parent pid, for concrete chains. -/
def chainEntry (p pp : Nat) : ProcessCacheEntry :=
  { pid := p, ppid := pp }

/-- A four-deep ancestor chain 10 → 11 → 12 → 13 (13's parent absent). -/
def chainCache : List (Nat × ProcessCacheEntry) :=
  [(10, chainEntry 10 11), (11, chainEntry 11 12),
   (12, chainEntry 12 13), (13, chainEntry 13 14)]

/-- A path-resolver oracle that fails for every pid except 13. -/
def chainResolver : Nat → Except Unit PathRes :=
  fun pid => if pid = 13 then Except.ok { pathnameStr := "/x" } else Except.error ()

/-- A kernel-map oracle bundle with a `pid_cache` row for pid 4 (cookie 77)
and a `proc_cache` row for cookie 77 whose decoded file inode is 7. -/
def kmOracle : Oracles :=
  { pidCacheLookup := fun p => if p = 4 then
      some { cookie := 77, decode := some { forkTime := 1, exitTime := 0, ppid := 1 } }
      else none
    procCacheLookup := fun c => if c = 77 then
      some { ctr := some "", cgroup := some (),
             procEntry := some { fileInode := 7, execTime := 3 } }
      else none }

/-! ### Lemmas about the map model -/

theorem mapLookup_mapErase_self {α : Type} (m : List (Nat × α)) (k : Nat) :
    mapLookup (mapErase m k) k = none := by
  induction m with
  | nil => rfl
  | cons kv rest ih =>
    obtain ⟨k', v⟩ := kv
    by_cases h : k' = k
    · simp [mapErase, h, ih]
    · simp [mapErase, mapLookup, h, ih]

theorem mapLookup_mapErase_ne {α : Type} (m : List (Nat × α)) (k q : Nat)
    (h : q ≠ k) : mapLookup (mapErase m k) q = mapLookup m q := by
  induction m with
  | nil => rfl
  | cons kv rest ih =>
    obtain ⟨k', v⟩ := kv
    by_cases hk : k' = k
    · subst hk
      simp [mapErase, mapLookup, Ne.symm h, ih]
    · by_cases hq : k' = q
      · simp [mapErase, mapLookup, hk, hq, h]
      · simp [mapErase, mapLookup, hk, hq, ih]

theorem mapLookup_mapInsert_self {α : Type} (m : List (Nat × α)) (k : Nat)
    (v : α) : mapLookup (mapInsert m k v) k = some v := by
  simp [mapInsert, mapLookup]

theorem mapLookup_mapInsert_ne {α : Type} (m : List (Nat × α)) (k q : Nat)
    (v : α) (h : q ≠ k) : mapLookup (mapInsert m k v) q = mapLookup m q := by
  simp [mapInsert, mapLookup, Ne.symm h, mapLookup_mapErase_ne m k q h]

/-! ### The `DequeueExited` grace window -/

theorem deleteEntry_lookup_ne (s : RState) (q pid exitTime : Nat)
    (h : pid ≠ q) :
    mapLookup (deleteEntry s q exitTime).entryCache pid = mapLookup s.entryCache pid := by
  unfold deleteEntry
  cases hq : mapLookup s.entryCache q with
  | none => rfl
  | some entry =>
    unfold releaseEntry
    dsimp only
    split_ifs <;> exact mapLookup_mapErase_ne s.entryCache q pid h

theorem deleteEntry_lookup_self (s : RState) (pid exitTime : Nat) :
    mapLookup (deleteEntry s pid exitTime).entryCache pid = none := by
  unfold deleteEntry
  cases hq : mapLookup s.entryCache pid with
  | none => exact hq
  | some entry =>
    unfold releaseEntry
    dsimp only
    split_ifs <;> exact mapLookup_mapErase_self s.entryCache pid

theorem dequeueStep_lookup_ne (now : Nat) (s : RState) (q pid : Nat)
    (h : pid ≠ q) :
    mapLookup (dequeueStep now s q).entryCache pid = mapLookup s.entryCache pid := by
  unfold dequeueStep
  cases hq : mapLookup s.entryCache q with
  | none => rfl
  | some entry =>
    dsimp only
    split_ifs <;> first
      | exact deleteEntry_lookup_ne s q pid now h
      | rfl

theorem dequeueStep_lookup_none (now : Nat) (s : RState) (q pid : Nat)
    (h : mapLookup s.entryCache pid = none) :
    mapLookup (dequeueStep now s q).entryCache pid = none := by
  by_cases hpq : pid = q
  · subst hpq
    unfold dequeueStep
    rw [h]
    exact h
  · rw [dequeueStep_lookup_ne now s q pid hpq]
    exact h

theorem dequeueStep_self_expired (now : Nat) (s : RState) (pid : Nat)
    (e : ProcessCacheEntry) (hl : mapLookup s.entryCache pid = some e)
    (hc : graceExpired e now) :
    mapLookup (dequeueStep now s pid).entryCache pid = none := by
  unfold dequeueStep
  rw [hl]
  dsimp only
  simp only [graceExpired] at hc
  split_ifs with h1 h2 h3 <;>
    first
    | exact deleteEntry_lookup_self s pid now
    | (exfalso; tauto)

theorem dequeueStep_self_young (now : Nat) (s : RState) (pid : Nat)
    (e : ProcessCacheEntry) (hl : mapLookup s.entryCache pid = some e)
    (hc : ¬ graceExpired e now) :
    dequeueStep now s pid = s := by
  unfold dequeueStep
  rw [hl]
  dsimp only
  simp only [graceExpired] at hc
  split_ifs with h1 h2 h3 <;> tauto

theorem foldl_dequeue_lookup_none (l : List Nat) (now : Nat) (s : RState)
    (pid : Nat) (h : mapLookup s.entryCache pid = none) :
    mapLookup (l.foldl (dequeueStep now) s).entryCache pid = none := by
  induction l generalizing s with
  | nil => simpa using h
  | cons q t ih =>
    simp only [List.foldl_cons]
    exact ih _ (dequeueStep_lookup_none now s q pid h)

theorem foldl_dequeue_lookup (l : List Nat) (now : Nat) (s : RState)
    (pid : Nat) (e : ProcessCacheEntry)
    (hl : mapLookup s.entryCache pid = some e) :
    mapLookup (l.foldl (dequeueStep now) s).entryCache pid =
      if pid ∈ l ∧ graceExpired e now then none else some e := by
  induction l generalizing s with
  | nil => simpa using hl
  | cons q t ih =>
    simp only [List.foldl_cons]
    by_cases hpq : pid = q
    · subst hpq
      by_cases hc : graceExpired e now
      · have h1 := dequeueStep_self_expired now s pid e hl hc
        have h2 := foldl_dequeue_lookup_none t now _ pid h1
        simp [h2, hc]
      · rw [dequeueStep_self_young now s pid e hl hc, ih s hl]
        simp [hc]
    · have h1 : mapLookup (dequeueStep now s q).entryCache pid = some e := by
        rw [dequeueStep_lookup_ne now s q pid hpq]; exact hl
      rw [ih _ h1]
      simp [List.mem_cons, hpq]

/-- C5: a pid processed from the exited queue whose cache entry exists is
deleted by `DequeueExited` if and only if, at that moment, the exec time is
set and more than one minute in the past, or the fork time is set and more
than one minute in the past, or both times are zero. -/
theorem dequeue_exited_deletes_iff_grace_expired (s : RState) (now pid : Nat)
    (e : ProcessCacheEntry) (hq : pid ∈ s.exitedQueue)
    (hl : mapLookup s.entryCache pid = some e) :
    mapLookup (DequeueExited s now).entryCache pid = none ↔
      ((e.execTime ≠ 0 ∧ e.execTime + timeMinute < now) ∨
       (e.forkTime ≠ 0 ∧ e.forkTime + timeMinute < now) ∨
       (e.forkTime = 0 ∧ e.execTime = 0)) := by
  unfold DequeueExited
  dsimp only
  rw [foldl_dequeue_lookup s.exitedQueue now s pid e hl]
  by_cases hc : graceExpired e now
  · rw [if_pos ⟨hq, hc⟩]
    exact iff_of_true rfl hc
  · rw [if_neg (fun hcontra => hc hcontra.2)]
    exact iff_of_false (by simp) hc

/-- Witness for C5: an entry whose exec time is 70 seconds in the past is
deleted by the sweep. -/
theorem dequeue_exited_deletes_iff_grace_expired_witness :
    mapLookup (DequeueExited
      { entryCache := [(7, { execTime := 10 })], exitedQueue := [7] }
      100).entryCache 7 = none :=
  (dequeue_exited_deletes_iff_grace_expired
    { entryCache := [(7, { execTime := 10 })], exitedQueue := [7] }
    100 7 { execTime := 10 } (by decide) (by decide)).mpr (by decide)

/-- C2 counterexample: a pid whose entry is younger than the 60-second grace
window does not stay in the exited queue — `DequeueExited` clears the whole
queue — even though its cache entry was not deleted. -/
theorem dequeue_exited_clears_queue_counterexample :
    (DequeueExited { entryCache := [(5, { forkTime := 90 })], exitedQueue := [5] }
        100).exitedQueue = [] ∧
    mapLookup (DequeueExited { entryCache := [(5, { forkTime := 90 })], exitedQueue := [5] }
        100).entryCache 5 = some { forkTime := 90 } ∧
    ¬ (90 + timeMinute < 100) := by
  refine ⟨rfl, by decide, by decide⟩

/-- C2 (amended): a queued pid whose entry is younger than the 60-second
grace window keeps its cache entry untouched across `DequeueExited`, but is
removed from the queue like every other element — the queue is truncated to
empty at the end of each run and vanished pids are re-enqueued by the next
janitor sweep. -/
theorem dequeue_exited_young_entry_kept (s : RState) (now pid : Nat)
    (e : ProcessCacheEntry) (_hq : pid ∈ s.exitedQueue)
    (hl : mapLookup s.entryCache pid = some e)
    (hyoung : ¬ ((e.execTime ≠ 0 ∧ e.execTime + timeMinute < now) ∨
      (e.forkTime ≠ 0 ∧ e.forkTime + timeMinute < now) ∨
      (e.forkTime = 0 ∧ e.execTime = 0))) :
    mapLookup (DequeueExited s now).entryCache pid = some e ∧
    (DequeueExited s now).exitedQueue = [] := by
  constructor
  · unfold DequeueExited
    dsimp only
    rw [foldl_dequeue_lookup s.exitedQueue now s pid e hl]
    exact if_neg (fun hcontra => hyoung hcontra.2)
  · rfl

/-- Witness for the amended C2: a freshly forked entry (30 seconds old)
survives the sweep in the cache while the queue is emptied. -/
theorem dequeue_exited_young_entry_kept_witness :
    mapLookup (DequeueExited
      { entryCache := [(6, { forkTime := 70 })], exitedQueue := [6] }
      100).entryCache 6 = some { forkTime := 70 } ∧
    (DequeueExited
      { entryCache := [(6, { forkTime := 70 })], exitedQueue := [6] }
      100).exitedQueue = [] :=
  dequeue_exited_young_entry_kept
    { entryCache := [(6, { forkTime := 70 })], exitedQueue := [6] }
    100 6 { forkTime := 70 } (by decide) (by decide) (by decide)

/-- C9: every credential-update handler (`UpdateUID`, `UpdateGID`,
`UpdateCapset`, `UpdateLoginUID`) is a no-op — the whole resolver state is
unchanged — when the event's process context has `Pid ≠ Tid` (the event
comes from a non-leader thread). -/
theorem credential_updates_noop_for_nonleader (oc : CredOracles) (s : RState)
    (pid : Nat) (e : Event) (h : e.pid ≠ e.tid) :
    UpdateUID oc s pid e = s ∧ UpdateGID oc s pid e = s ∧
    UpdateCapset s pid e = s ∧ UpdateLoginUID s pid e = s := by
  refine ⟨?_, ?_, ?_, ?_⟩ <;>
    simp [UpdateUID, UpdateGID, UpdateCapset, UpdateLoginUID, h]

/-- Witness for C9 at a concrete non-leader event. -/
theorem credential_updates_noop_for_nonleader_witness :
    UpdateUID {} {} 5 { pid := 1, tid := 2 } = {} ∧
    UpdateGID {} {} 5 { pid := 1, tid := 2 } = {} ∧
    UpdateCapset {} 5 { pid := 1, tid := 2 } = {} ∧
    UpdateLoginUID {} 5 { pid := 1, tid := 2 } = {} :=
  credential_updates_noop_for_nonleader {} {} 5 { pid := 1, tid := 2 } (by decide)

/-- C4: when an exec insertion finds a previous entry under the same pid
with the same identity fingerprint (`prev.Equals entry`), `insertExecEntry`
only applies the new entry's exec time to the previous entry: the pid still
maps to the previous entry (with the refreshed exec time), every other pid
mapping is untouched, and the cache size and the per-source added counters
are unchanged — no new entry is inserted. -/
theorem insert_exec_entry_coalesces_exec_bomb (s : RState)
    (entry prev : ProcessCacheEntry) (inode : Nat) (source : Source)
    (hpid : entry.pid ≠ 0)
    (hprev : mapLookup s.entryCache entry.pid = some prev)
    (heq : prev.Equals entry = true) :
    mapLookup (insertExecEntry s entry inode source).entryCache entry.pid
      = some { prev with execTime := entry.execTime } ∧
    (∀ q, q ≠ entry.pid →
      mapLookup (insertExecEntry s entry inode source).entryCache q
        = mapLookup s.entryCache q) ∧
    (insertExecEntry s entry inode source).cacheSize = s.cacheSize ∧
    (insertExecEntry s entry inode source).addedEntriesFromEvent
      = s.addedEntriesFromEvent ∧
    (insertExecEntry s entry inode source).addedEntriesFromKernelMap
      = s.addedEntriesFromKernelMap ∧
    (insertExecEntry s entry inode source).addedEntriesFromProcFS
      = s.addedEntriesFromProcFS := by
  have hfp : prev.identityFingerprint = entry.identityFingerprint := by
    simpa [ProcessCacheEntry.Equals] using heq
  unfold insertExecEntry
  rw [if_neg hpid]
  simp only [hprev]
  by_cases hm : inode ≠ 0 ∧ prev.fileEvent.inode ≠ inode
  · rw [if_pos hm]
    dsimp only
    rw [if_pos (show prev.Equals { entry with isParentMissing := true } = true by
      simp [ProcessCacheEntry.Equals, hfp])]
    refine ⟨?_, ?_, rfl, rfl, rfl, rfl⟩
    · rw [mapLookup_mapInsert_self]
      simp [ProcessCacheEntry.ApplyExecTimeOf]
    · intro q hqe
      exact mapLookup_mapInsert_ne _ _ _ _ hqe
  · rw [if_neg hm]
    dsimp only
    rw [if_pos heq]
    refine ⟨?_, ?_, rfl, rfl, rfl, rfl⟩
    · rw [mapLookup_mapInsert_self]
      simp [ProcessCacheEntry.ApplyExecTimeOf]
    · intro q hqe
      exact mapLookup_mapInsert_ne _ _ _ _ hqe

/-- Witness for C4: a duplicate exec event (same fingerprint, later exec
time) refreshes the exec time of the cached entry without growing the
cache. -/
theorem insert_exec_entry_coalesces_exec_bomb_witness :
    mapLookup (insertExecEntry
      { entryCache := [(3, { pid := 3, identityFingerprint := 9, execTime := 1 })] }
      { pid := 3, identityFingerprint := 9, execTime := 2 } 0
      Source.event).entryCache 3
      = some { pid := 3, identityFingerprint := 9, execTime := 2 } ∧
    (insertExecEntry
      { entryCache := [(3, { pid := 3, identityFingerprint := 9, execTime := 1 })] }
      { pid := 3, identityFingerprint := 9, execTime := 2 } 0
      Source.event).cacheSize = 0 := by
  have h := insert_exec_entry_coalesces_exec_bomb
    { entryCache := [(3, { pid := 3, identityFingerprint := 9, execTime := 1 })] }
    { pid := 3, identityFingerprint := 9, execTime := 2 }
    { pid := 3, identityFingerprint := 9, execTime := 1 } 0
    Source.event (by decide) (by decide) (by decide)
  exact ⟨h.1, h.2.2.1⟩

/-! ### AWS security credentials -/

theorem take_append_drop_succ_sublist {α : Type} (l : List α) (i : Nat) :
    (l.take i ++ l.drop (i + 1)).Sublist l := by
  induction l generalizing i with
  | nil => simp
  | cons a t ih =>
    cases i with
    | zero => simp
    | succ j => simpa using (ih j).cons₂ a

theorem fetchDeleteIds_sublist (creds : List AWSSecurityCredentials)
    (ids : List Nat) : (fetchDeleteIds creds ids).Sublist creds := by
  unfold fetchDeleteIds
  induction ids generalizing creds with
  | nil => exact List.Sublist.refl creds
  | cons i t ih =>
    simp only [List.foldl_cons]
    exact (ih (creds.take i ++ creds.drop (i + 1))).trans
      (take_append_drop_succ_sublist creds i)

/-- C10: for every cached entry whose observed AWS security credentials
have pairwise-distinct access key ids, that distinctness is an invariant:
`UpdateAWSSecurityCredentials` is a no-op on an empty access key id and on
a key already present, appends only genuinely new keys (preserving
distinctness), and `FetchAWSSecurityCredentials` only removes elements
(its result is a sublist), preserving distinctness of both the returned
list and the stored entry. -/
theorem aws_credentials_distinct (s : RState) (e : Event) :
    (∀ pid, e.imdsCredentials.accessKeyID = "" →
      UpdateAWSSecurityCredentials s pid e = s) ∧
    (∀ pid entry, mapLookup s.entryCache pid = some entry →
      entry.awsSecurityCredentials.any
        (fun key => key.accessKeyID = e.imdsCredentials.accessKeyID) = true →
      UpdateAWSSecurityCredentials s pid e = s) ∧
    (∀ pid entry, mapLookup s.entryCache pid = some entry →
      entry.awsSecurityCredentials.Pairwise
        (fun a b => a.accessKeyID ≠ b.accessKeyID) →
      ∀ entry', mapLookup (UpdateAWSSecurityCredentials s pid e).entryCache pid
          = some entry' →
        entry'.awsSecurityCredentials.Pairwise
          (fun a b => a.accessKeyID ≠ b.accessKeyID)) ∧
    (∀ entry, mapLookup s.entryCache e.pid = some entry →
      entry.awsSecurityCredentials.Pairwise
        (fun a b => a.accessKeyID ≠ b.accessKeyID) →
      (FetchAWSSecurityCredentials s e).1.Sublist entry.awsSecurityCredentials ∧
      (FetchAWSSecurityCredentials s e).1.Pairwise
        (fun a b => a.accessKeyID ≠ b.accessKeyID) ∧
      (∀ entry', mapLookup (FetchAWSSecurityCredentials s e).2.entryCache e.pid
          = some entry' →
        entry'.awsSecurityCredentials.Pairwise
          (fun a b => a.accessKeyID ≠ b.accessKeyID))) := by
  refine ⟨?_, ?_, ?_, ?_⟩
  · intro pid h
    unfold UpdateAWSSecurityCredentials
    rw [if_pos h]
  · intro pid entry hl ha
    unfold UpdateAWSSecurityCredentials
    by_cases hk : e.imdsCredentials.accessKeyID = ""
    · rw [if_pos hk]
    · rw [if_neg hk]
      simp only [hl]
      rw [if_pos ha]
  · intro pid entry hl hp entry' hl'
    unfold UpdateAWSSecurityCredentials at hl'
    by_cases hk : e.imdsCredentials.accessKeyID = ""
    · rw [if_pos hk, hl] at hl'
      cases hl'
      exact hp
    · rw [if_neg hk] at hl'
      simp only [hl] at hl'
      by_cases ha : entry.awsSecurityCredentials.any
          (fun key => key.accessKeyID = e.imdsCredentials.accessKeyID) = true
      · rw [if_pos ha, hl] at hl'
        cases hl'
        exact hp
      · rw [if_neg ha] at hl'
        simp only [mapLookup_mapInsert_self] at hl'
        cases hl'
        have hnew : ∀ k ∈ entry.awsSecurityCredentials,
            k.accessKeyID ≠ e.imdsCredentials.accessKeyID := by
          intro k hkmem
          intro hcontra
          exact ha (List.any_eq_true.mpr ⟨k, hkmem, by simpa using hcontra⟩)
        refine List.pairwise_append.mpr ⟨hp, List.pairwise_singleton _ _, ?_⟩
        intro a hamem b hbmem
        simp only [List.mem_singleton] at hbmem
        subst hbmem
        exact hnew a hamem
  · intro entry hl hp
    unfold FetchAWSSecurityCredentials
    simp only [hl]
    have hsub := fetchDeleteIds_sublist entry.awsSecurityCredentials
      (fetchToDelete entry.awsSecurityCredentials e.eventTime)
    refine ⟨hsub, List.Pairwise.sublist hsub hp, ?_⟩
    intro entry' hl'
    rw [mapLookup_mapInsert_self] at hl'
    cases hl'
    exact List.Pairwise.sublist hsub hp

/-- Witness for C10: fetching at a time before the stored credential's
expiry keeps the singleton list (a sublist, still distinct). -/
theorem aws_credentials_distinct_witness :
    (FetchAWSSecurityCredentials
      { entryCache := [(7, { awsSecurityCredentials :=
          [{ accessKeyID := "A", expiration := 50 }] })] }
      { pid := 7, eventTime := 10 }).1.Sublist
        [{ accessKeyID := "A", expiration := 50 }] ∧
    (FetchAWSSecurityCredentials
      { entryCache := [(7, { awsSecurityCredentials :=
          [{ accessKeyID := "A", expiration := 50 }] })] }
      { pid := 7, eventTime := 10 }).1.Pairwise
        (fun a b => a.accessKeyID ≠ b.accessKeyID) := by
  have h := (aws_credentials_distinct
    { entryCache := [(7, { awsSecurityCredentials :=
        [{ accessKeyID := "A", expiration := 50 }] })] }
    { pid := 7, eventTime := 10 }).2.2.2
    { awsSecurityCredentials := [{ accessKeyID := "A", expiration := 50 }] }
    (by decide) (by decide)
  exact ⟨h.1, h.2.1⟩

/-! ### Insertion counters -/

theorem insertEntry_counters_step (s : RState) (e : ProcessCacheEntry)
    (prev : Option ProcessCacheEntry) (src : Source) :
    (insertEntry s e prev src).addedEntriesFromEvent
      + (insertEntry s e prev src).addedEntriesFromKernelMap
      + (insertEntry s e prev src).addedEntriesFromProcFS
    = s.addedEntriesFromEvent + s.addedEntriesFromKernelMap
      + s.addedEntriesFromProcFS
      + (if src = Source.snapshot then 0 else 1) := by
  cases src <;> cases prev <;>
    simp [insertEntry, releaseEntry] <;> first
      | omega
      | (split_ifs <;> simp <;> omega)

/-- C3 counterexample: a snapshot-sourced insertion — the `SyncCache`
startup path — updates the cache (one insertion, cache size 1) while the
sum of the added-from-event, added-from-kernel-map and added-from-procfs
counters stays 0, so the sum does not equal the total number of
insertions. -/
theorem snapshot_insertion_not_counted_counterexample :
    (SyncCacheF snapOracle {} 9).1 = true ∧
    (SyncCacheF snapOracle {} 9).2.cacheSize = 1 ∧
    (mapLookup (SyncCacheF snapOracle {} 9).2.entryCache 9).isSome = true ∧
    (SyncCacheF snapOracle {} 9).2.addedEntriesFromEvent
      + (SyncCacheF snapOracle {} 9).2.addedEntriesFromKernelMap
      + (SyncCacheF snapOracle {} 9).2.addedEntriesFromProcFS = 0 := by
  refine ⟨by decide, by decide, by decide, by decide⟩

/-- C3 (amended): over any sequence of `insertEntry` calls, the sum of the
three added-from counters grows by exactly the number of insertions whose
source is event, kernel-map or procfs; snapshot-sourced insertions are
counted by none of the three. -/
theorem insert_entry_counter_sum
    (xs : List (ProcessCacheEntry × Option ProcessCacheEntry × Source))
    (s : RState) :
    ((xs.foldl (fun acc x => insertEntry acc x.1 x.2.1 x.2.2) s).addedEntriesFromEvent
      + (xs.foldl (fun acc x => insertEntry acc x.1 x.2.1 x.2.2) s).addedEntriesFromKernelMap
      + (xs.foldl (fun acc x => insertEntry acc x.1 x.2.1 x.2.2) s).addedEntriesFromProcFS)
    = s.addedEntriesFromEvent + s.addedEntriesFromKernelMap
      + s.addedEntriesFromProcFS
      + xs.countP (fun x => decide (x.2.2 ≠ Source.snapshot)) := by
  induction xs generalizing s with
  | nil => simp
  | cons x t ih =>
    simp only [List.foldl_cons, List.countP_cons]
    rw [ih, insertEntry_counters_step]
    by_cases hsrc : x.2.2 = Source.snapshot
    · simp [hsrc]
    · simp [hsrc]
      omega

/-! ### Argv/envp chunk parsing -/

theorem set_last_eq_dropLast_append {α : Type} :
    ∀ (l : List α) (x : α), l ≠ [] →
      l.set (l.length - 1) x = l.dropLast ++ [x]
  | [], _, h => absurd rfl h
  | [_], _, _ => rfl
  | a :: b :: t, x, _ => by
    have ih := set_last_eq_dropLast_append (b :: t) x (by simp)
    simp only [List.length_cons, Nat.add_sub_cancel] at ih ⊢
    simp only [List.set, List.dropLast]
    rw [ih]
    simp

/-- C6: `parseStringArray` marks the parse truncated exactly when the
NUL-split parse reports an error or the blob fills the maximum chunk size;
in that case the last value (when one exists) is suffixed with `"..."`
and the rest are unchanged; otherwise nothing is altered and the result
is not truncated. -/
theorem parse_string_array_truncation (data : List Nat) :
    (((unmarshalStringArray data).2 = true ∨ data.length = MaxArgEnvSize) →
      (parseStringArray data).2 = true ∧
      ((unmarshalStringArray data).1 = [] → (parseStringArray data).1 = []) ∧
      ((unmarshalStringArray data).1 ≠ [] →
        (parseStringArray data).1
          = (unmarshalStringArray data).1.dropLast
            ++ [(unmarshalStringArray data).1.getD
                ((unmarshalStringArray data).1.length - 1) "" ++ "..."])) ∧
    (((unmarshalStringArray data).2 = false ∧ data.length ≠ MaxArgEnvSize) →
      (parseStringArray data).2 = false ∧
      (parseStringArray data).1 = (unmarshalStringArray data).1) := by
  unfold parseStringArray
  cases hu : unmarshalStringArray data with
  | mk vs err =>
    simp only []
    constructor
    · intro hcond
      have hcond' : err = true ∨ data.length = MaxArgEnvSize := hcond
      rw [if_pos hcond']
      cases vs with
      | nil => exact ⟨rfl, fun _ => rfl, fun hne => absurd rfl hne⟩
      | cons v t =>
        refine ⟨rfl, ?_, ?_⟩
        · intro habs
          exact (List.cons_ne_nil v t habs).elim
        · intro _
          have hset := set_last_eq_dropLast_append (v :: t)
            ((v :: t).getD ((v :: t).length - 1) "" ++ "...") (by simp)
          simpa using hset
    · intro ⟨he, hlen⟩
      rw [if_neg]
      · exact ⟨rfl, rfl⟩
      · intro hcontra
        rcases hcontra with h1 | h2
        · rw [he] at h1
          cases h1
        · exact hlen h2

/-- Witness for C6: the blob `"a\x00b"` (unterminated trailing fragment)
parses with an error, so the result is truncated and the last value is
suffixed. -/
theorem parse_string_array_truncation_witness :
    (parseStringArray [97, 0, 98]).2 = true ∧
    (parseStringArray [97, 0, 98]).1 = ["a", "b..."] := by
  have h := (parse_string_array_truncation [97, 0, 98]).1 (by decide)
  refine ⟨h.1, ?_⟩
  have h3 := h.2.2 (by decide)
  rw [h3]
  decide

/-! ### The snapshot-state gate of the resolution pipeline -/

theorem resolveFromCacheF_miss (s : RState) (pid tid inode : Nat)
    (h : (resolveFromCacheF s pid tid inode).1 = none) :
    resolveFromCacheF s pid tid inode = (none, s) := by
  cases hl : mapLookup s.entryCache pid with
  | none =>
    unfold resolveFromCacheF
    rw [hl]
  | some entry =>
    by_cases hc : inode ≠ 0 ∧ inode ≠ entry.fileEvent.inode
    · unfold resolveFromCacheF
      simp only [hl]
      rw [if_pos hc]
    · exfalso
      unfold resolveFromCacheF at h
      simp only [hl] at h
      rw [if_neg hc] at h
      simp at h

set_option maxHeartbeats 4000000 in
/-- C1 (amended): while the resolver state is still `Snapshotting`, a
cache-tier miss makes `resolve` return none immediately with the state
unchanged: the kernel-map tier AND the procfs tier are both skipped — only
the cache tier is usable before the snapshot completes, whatever the
oracles, the rate limiter and the `useProcFS` flag would allow. -/
theorem resolve_snapshotting_only_cache_tier (fuel : Nat) (or : Oracles)
    (s : RState) (pid tid inode : Nat) (useProcFS : Bool)
    (hstate : s.state = RunState.snapshotting)
    (hmiss : (resolveFromCacheF s pid tid inode).1 = none) :
    resolveF fuel or s pid tid inode useProcFS = (none, s) := by
  have hcache := resolveFromCacheF_miss s pid tid inode hmiss
  have hne : s.state ≠ RunState.snapshotted := by
    rw [hstate]
    exact fun hc => RunState.noConfusion hc
  cases fuel with
  | zero =>
    unfold resolveF resolveWith
    rw [hcache]
    dsimp only
    rw [if_pos hne]
  | succ f =>
    unfold resolveF resolveWith
    rw [hcache]
    dsimp only
    rw [if_pos hne]

/-- Witness for the amended C1: with every oracle at its default and an
empty cache in the `Snapshotting` state, `resolve` misses and returns
none. -/
theorem resolve_snapshotting_only_cache_tier_witness :
    resolveF 2 {} {} 5 5 0 true = (none, ({} : RState)) :=
  resolve_snapshotting_only_cache_tier 2 {} {} 5 5 0 true rfl (by decide)

set_option maxHeartbeats 4000000 in
/-- C1 counterexample: in the `Snapshotting` state, with oracles
under which the procfs tier succeeds for pid 9 and the limiter admits the
pid, `Resolve` still returns none right after the cache miss — the procfs
fallback is not attempted. -/
theorem resolve_snapshotting_skips_usable_procfs_counterexample :
    Resolve 3 snapOracle {} 9 9 0 true = (none, ({} : RState)) ∧
    (resolveFromProcfsF snapOracle {} 9 procResolveMaxDepth).1.isSome = true ∧
    snapOracle.allowProcFallback 9 = true := by
  refine ⟨by decide, by decide, by decide⟩

/-! ### Path resolution retries -/

theorem resolveFileFieldsPathLoop_ok_iff (pr : Nat → Except Unit PathRes)
    (cache : List (Nat × ProcessCacheEntry)) :
    ∀ (n : Nat) (pce : ProcessCacheEntry) (r : PathRes),
      resolveFileFieldsPathLoop pr cache n pce = Except.ok r ↔
        ∃ k, k < n ∧ ∃ e, ancestorAt cache k pce = some e ∧
          pr e.pid = Except.ok r ∧
          ∀ j e', j < k → ancestorAt cache j pce = some e' →
            pr e'.pid = Except.error () := by
  intro n
  induction n with
  | zero =>
    intro pce r
    constructor
    · intro h
      simp [resolveFileFieldsPathLoop] at h
    · rintro ⟨k, hk, _⟩
      omega
  | succ n ih =>
    intro pce r
    constructor
    · intro h
      unfold resolveFileFieldsPathLoop at h
      cases hpr : pr pce.pid with
      | ok r0 =>
        rw [hpr] at h
        refine ⟨0, by omega, pce, rfl, ?_, ?_⟩
        · rw [hpr]
          exact h
        · intro j e' hj _
          omega
      | error u =>
        rw [hpr] at h
        cases hpar : mapLookup cache pce.ppid with
        | none =>
          rw [hpar] at h
          cases h
        | some parent =>
          rw [hpar] at h
          obtain ⟨k, hk, e, hanc, hpre, hall⟩ := (ih parent r).mp h
          refine ⟨k + 1, by omega, e, ?_, hpre, ?_⟩
          · simpa [ancestorAt, hpar] using hanc
          · intro j e' hj hje
            cases j with
            | zero =>
              simp only [ancestorAt, Option.some.injEq] at hje
              subst hje
              cases u
              exact hpr
            | succ j' =>
              have hje' : ancestorAt cache j' parent = some e' := by
                simpa [ancestorAt, hpar] using hje
              exact hall j' e' (by omega) hje'
    · rintro ⟨k, hk, e, hanc, hpre, hall⟩
      unfold resolveFileFieldsPathLoop
      cases hpr : pr pce.pid with
      | ok r0 =>
        cases k with
        | zero =>
          simp only [ancestorAt, Option.some.injEq] at hanc
          subst hanc
          rw [hpr] at hpre
          exact hpre
        | succ k' =>
          exfalso
          have h0 := hall 0 pce (by omega) rfl
          rw [hpr] at h0
          cases h0
      | error u =>
        cases hpar : mapLookup cache pce.ppid with
        | none =>
          exfalso
          cases k with
          | zero =>
            simp only [ancestorAt, Option.some.injEq] at hanc
            subst hanc
            rw [hpr] at hpre
            cases hpre
          | succ k' =>
            have hnone : ancestorAt cache (k' + 1) pce = none := by
              simp [ancestorAt, hpar]
            rw [hnone] at hanc
            cases hanc
        | some parent =>
          cases k with
          | zero =>
            exfalso
            simp only [ancestorAt, Option.some.injEq] at hanc
            subst hanc
            rw [hpr] at hpre
            cases hpre
          | succ k' =>
            have hrec := (ih parent r).mpr
              ⟨k', by omega, e, by simpa [ancestorAt, hpar] using hanc, hpre,
               fun j e' hj hje =>
                 hall (j + 1) e' (by omega) (by simpa [ancestorAt, hpar] using hje)⟩
            exact hrec

/-- C7 (amended): a failing path resolution is retried at most twice up the
ancestor chain — `resolveFileFieldsPath` succeeds exactly when one of the
FIRST THREE entries of the ancestor chain (the entry itself plus at most
two ancestors, `maxDepthRetry = 3` attempts in total) resolves after the
earlier ones failed — and when every attempt fails, `SetProcessPath`
clears the file event's pathname and basename, increments the path-error
counter and returns the error to the caller. -/
theorem set_process_path_retries (pr : Nat → Except Unit PathRes) :
    (∀ cache pce r, resolveFileFieldsPath pr cache pce = Except.ok r ↔
      ∃ k, k < 3 ∧ ∃ e, ancestorAt cache k pce = some e ∧
        pr e.pid = Except.ok r ∧
        ∀ j e', j < k → ancestorAt cache j pce = some e' →
          pr e'.pid = Except.error ()) ∧
    (∀ (s : RState) (fe : FileEvent) (pce : ProcessCacheEntry),
      (fe.inode = 0 ∨ resolveFileFieldsPath pr s.entryCache pce = Except.error ()) →
      SetProcessPath pr s fe pce =
        ({ s with pathErrStats := s.pathErrStats + 1 },
         { fe with pathnameStr := "", basenameStr := "" }, "", true)) := by
  constructor
  · intro cache pce r
    exact resolveFileFieldsPathLoop_ok_iff pr cache 3 pce r
  · intro s fe pce h
    unfold SetProcessPath
    rcases h with h0 | herr
    · rw [if_pos h0]
    · by_cases h0 : fe.inode = 0
      · rw [if_pos h0]
      · rw [if_neg h0]
        rw [herr]

/-- Witness for the amended C7: with an empty cache and an always-failing
resolver, `SetProcessPath` clears the file event and reports the error. -/
theorem set_process_path_retries_witness :
    SetProcessPath chainResolver {} { inode := 5 } (chainEntry 10 11) =
      ({ pathErrStats := 1 },
       { inode := 5, pathnameStr := "", basenameStr := "" }, "", true) :=
  (set_process_path_retries chainResolver).2 {} { inode := 5 } (chainEntry 10 11)
    (Or.inr rfl)

/-- C7 counterexample: on the chain 10 → 11 → 12 → 13, where path
resolution fails for the pid contexts of the first three attempts
(10, 11, 12) and would succeed at 13 — the pid a third retry would
substitute — `resolveFileFieldsPath` still returns the error: only two
retries (three attempts) ever happen, not three retries. -/
theorem path_resolution_third_retry_not_attempted_counterexample :
    resolveFileFieldsPath chainResolver chainCache (chainEntry 10 11)
      = Except.error () ∧
    chainResolver 10 = Except.error () ∧
    chainResolver 11 = Except.error () ∧
    chainResolver 12 = Except.error () ∧
    chainResolver 13 = Except.ok { pathnameStr := "/x" } ∧
    ancestorAt chainCache 3 (chainEntry 10 11) = some (chainEntry 13 14) := by
  refine ⟨rfl, rfl, rfl, rfl, rfl, rfl⟩

/-! ### The kernel-map tier inode validation -/

theorem resolveNew_zero_inode (or : Oracles) (s : RState)
    (entry : ProcessCacheEntry) (h : entry.fileEvent.inode = 0) :
    ResolveNewProcessCacheEntryF or s entry =
      (Except.error (), { s with pathErrStats := s.pathErrStats + 1 }) := by
  unfold ResolveNewProcessCacheEntryF SetProcessPath
  rw [if_pos h]

set_option maxHeartbeats 4000000 in
/-- C8: in the kernel-map tier, whenever the file-event inode decoded from
the `proc_cache` row differs from the exec inode the caller passed in the
pid context, the tier returns none and inserts nothing: the pid map, the
cache size and the per-source added counters are unchanged. (When the
decoded inode is non-zero the explicit validation rejects the entry; when
it is zero, the subsequent path resolution fails on the zero inode before
any insertion.) -/
theorem kernel_maps_rejects_inode_mismatch (resolveSub : ResolveSub)
    (or : Oracles) (s : RState) (pid tid inode : Nat)
    (pc : PidCacheBlob) (blob : ProcCacheBlob) (cid : String) (cg : Unit)
    (d : ProcEntryDecode)
    (hpid : pid ≠ 0)
    (h1 : or.pidCacheLookup pid = some pc)
    (h2 : or.procCacheLookup pc.cookie = some blob)
    (hctr : blob.ctr = some cid)
    (hcg : blob.cgroup = some cg)
    (hd : blob.procEntry = some d)
    (hneq : d.fileInode ≠ inode) :
    (resolveFromKernelMapsWith resolveSub or s pid tid inode).1 = none ∧
    (resolveFromKernelMapsWith resolveSub or s pid tid inode).2.entryCache
      = s.entryCache ∧
    (resolveFromKernelMapsWith resolveSub or s pid tid inode).2.cacheSize
      = s.cacheSize ∧
    (resolveFromKernelMapsWith resolveSub or s pid tid inode).2.addedEntriesFromEvent
      = s.addedEntriesFromEvent ∧
    (resolveFromKernelMapsWith resolveSub or s pid tid inode).2.addedEntriesFromKernelMap
      = s.addedEntriesFromKernelMap ∧
    (resolveFromKernelMapsWith resolveSub or s pid tid inode).2.addedEntriesFromProcFS
      = s.addedEntriesFromProcFS := by
  have hres : resolveFromKernelMapsWith resolveSub or s pid tid inode = (none, s) ∨
      resolveFromKernelMapsWith resolveSub or s pid tid inode
        = (none, { s with pathErrStats := s.pathErrStats + 1 }) := by
    unfold resolveFromKernelMapsWith
    rw [if_neg hpid]
    simp only [h1, h2, hctr, hcg, hd]
    by_cases hz : d.fileInode = 0
    · rw [if_neg (by simp [hz])]
      cases hpd : pc.decode with
      | none => left; rfl
      | some pd =>
        right
        simp only [resolveNew_zero_inode, hz]
    · left
      rw [if_pos (by simp [NewProcessCacheEntryF, hz, hneq])]
  rcases hres with hres | hres <;> rw [hres] <;> exact ⟨rfl, rfl, rfl, rfl, rfl, rfl⟩

set_option maxHeartbeats 4000000 in
/-- Witness for C8: pid 4 decodes to file inode 7 while the exec inode is
42; the tier rejects and the state is untouched. -/
theorem kernel_maps_rejects_inode_mismatch_witness :
    (resolveFromKernelMapsWith (fun s _ _ _ _ => (none, s)) kmOracle {} 4 4 42).1
      = none ∧
    (resolveFromKernelMapsWith (fun s _ _ _ _ => (none, s)) kmOracle {} 4 4 42).2.entryCache
      = ({} : RState).entryCache := by
  have h := kernel_maps_rejects_inode_mismatch (fun s _ _ _ _ => (none, s))
    kmOracle {} 4 4 42
    { cookie := 77, decode := some { forkTime := 1, exitTime := 0, ppid := 1 } }
    { ctr := some "", cgroup := some (),
      procEntry := some { fileInode := 7, execTime := 3 } }
    "" () { fileInode := 7, execTime := 3 }
    (by decide) (by decide) (by decide) (by decide) (by decide) (by decide)
    (by decide)
  exact ⟨h.1, h.2.1⟩

end DDProc
